import Mathlib

/-!
Verification of the printer-queue simulation.

The development shallowly embeds the C++ source `Printer Queue.cpp`:
times are simulated milliseconds as `Int` (C++ `chrono` time points and
durations), page counts are `Int` (C++ `int`), C++ integer division `/`
(truncation toward zero) is `Int.tdiv`, `std::queue<PrintJob>` is a
`List PrintJob` whose head is the queue front and where push appends at
the back, and the `std::cout` lines of the core logic become an explicit
list of structured events returned by each operation.
-/

namespace PrinterQueue

/-- Constant from the source: `MILLISECONDS_PER_SECOND = 1000`. -/
def MILLISECONDS_PER_SECOND : Int := 1000

/-- Constant from the source: `SECONDS_PER_MINUTE = 60`. -/
def SECONDS_PER_MINUTE : Int := 60

/-- Constant from the source: `SHEETS_PER_MINUTE = 7`. -/
def SHEETS_PER_MINUTE : Int := 7

/-- Constant from the source:
`MILLISECONDS_PER_SHEET = MILLISECONDS_PER_SECOND * SECONDS_PER_MINUTE / SHEETS_PER_MINUTE`,
computed with C++ integer division (truncation). -/
def MILLISECONDS_PER_SHEET : Int :=
  (MILLISECONDS_PER_SECOND * SECONDS_PER_MINUTE).tdiv SHEETS_PER_MINUTE

/-- Events emitted by the core logic (the `std::cout` lines of the source,
stripped of formatting). -/
inductive Event where
  | created (jobId pages : Int)
  | addedToQueue (printerId jobId : Int)
  | startedPrinting (printerId jobId : Int)
  | finishedPrinting (printerId jobId : Int)
deriving DecidableEq

/-- Source `struct PrintJob`: an id and a page count, both C++ `int`. -/
structure PrintJob where
  ID : Int
  Pages : Int
deriving DecidableEq

/-- The `PrintJob(int pages)` constructor: reads the static counter
`jobCount`, stores it as `ID` and post-increments it, and stores `pages`
unchanged.  The static counter is threaded explicitly; the constructor
performs no validation of `pages`. -/
def PrintJob.create (jobCount : Int) (pages : Int) : PrintJob × Int :=
  ({ ID := jobCount, Pages := pages }, jobCount + 1)

/-- Source `class Printer`: field for field the C++ class.  `start` is the
simulated time (ms) at which the current job started, `pagesPrinted`
counts pages printed of the current job, `totalPagesRemaining` tracks
pages for all jobs in the queue, and `printing` is true while the first
job of the queue is being printed.  The C++ field initializers give the
default values. -/
structure Printer where
  start : Int := 0
  pagesPrinted : Int := 0
  totalPagesRemaining : Int := 0
  printerID : Int := 0
  printQueue : List PrintJob := []
  printing : Bool := false
deriving DecidableEq

instance : Inhabited Printer := ⟨{}⟩

/-- Source `Printer::NoJobs()`: `printQueue.size() < 1`. -/
def Printer.NoJobs (p : Printer) : Bool :=
  p.printQueue.length < 1

/-- Source `Printer::PagesLeft()`: 0 when the queue is empty, otherwise the
front job's pages minus `pagesPrinted`. -/
def Printer.PagesLeft (p : Printer) : Int :=
  match p.printQueue with
  | [] => 0
  | currentJob :: _ => currentJob.Pages - p.pagesPrinted

/-- Source `Printer::JobComplete()`: `PagesLeft() == 0`. -/
def Printer.JobComplete (p : Printer) : Bool :=
  p.PagesLeft = 0

/-- Source `Printer::IsIdle()`: `!printing`. -/
def Printer.IsIdle (p : Printer) : Bool :=
  !p.printing

/-- Source `Printer::GetTotalPagesLeft()`: 0 when the queue is empty, otherwise
`totalPagesRemaining - pagesPrinted`. -/
def Printer.GetTotalPagesLeft (p : Printer) : Int :=
  if p.NoJobs then 0 else p.totalPagesRemaining - p.pagesPrinted

/-- Source `Printer::CheckStartNextJob()`: returns unchanged when the queue is
empty or the printer is not idle; otherwise records the current simulated
time as `start`, sets `printing`, and emits the "started printing" event
for the front job.  The global `simulatedTime` is passed explicitly. -/
def Printer.CheckStartNextJob (p : Printer) (simulatedTime : Int) :
    Printer × List Event :=
  match p.printQueue with
  | [] => (p, [])
  | currentJob :: _ =>
    if !p.IsIdle then (p, [])
    else
      ({ p with start := simulatedTime, printing := true },
       [Event.startedPrinting p.printerID currentJob.ID])

/-- Source `Printer::Print(PrintJob job)`: pushes the job, emits the "added job
to the queue" event, adds the job's pages to `totalPagesRemaining`, and
when the queue now holds exactly one job calls `CheckStartNextJob()`. -/
def Printer.Print (p : Printer) (job : PrintJob) (simulatedTime : Int) :
    Printer × List Event :=
  let p1 := { p with printQueue := p.printQueue ++ [job],
                     totalPagesRemaining := p.totalPagesRemaining + job.Pages }
  if p1.printQueue.length = 1 then
    let res := p1.CheckStartNextJob simulatedTime
    (res.1, Event.addedToQueue p.printerID job.ID :: res.2)
  else
    (p1, [Event.addedToQueue p.printerID job.ID])

/-- Source `Printer::Update()`: returns unchanged when the queue is empty;
otherwise recomputes `pagesPrinted` as the elapsed time since `start`
divided (C++ truncating division) by `MILLISECONDS_PER_SHEET`, clamped to
the front job's pages; when the job is complete it emits the "finished
printing" event, subtracts the job's pages from `totalPagesRemaining`,
pops the queue, clears `printing` and calls `CheckStartNextJob()`. -/
def Printer.Update (p : Printer) (simulatedTime : Int) :
    Printer × List Event :=
  match p.printQueue with
  | [] => (p, [])
  | currentJob :: rest =>
    let timeSinceStart := simulatedTime - p.start
    let pagesPrinted0 := timeSinceStart.tdiv MILLISECONDS_PER_SHEET
    let pagesPrinted :=
      if pagesPrinted0 > currentJob.Pages then currentJob.Pages else pagesPrinted0
    let p1 := { p with pagesPrinted := pagesPrinted }
    if p1.JobComplete then
      let p2 := { p1 with
                  totalPagesRemaining := p1.totalPagesRemaining - currentJob.Pages,
                  printQueue := rest,
                  printing := false }
      let res := p2.CheckStartNextJob simulatedTime
      (res.1, Event.finishedPrinting p.printerID currentJob.ID :: res.2)
    else
      (p1, [])

/-- A printer as constructed by `Printer()` in `Setup()`: all fields at
their C++ initializer values, with the id taken from the static counter. -/
def initialPrinter (id : Int) : Printer :=
  { printerID := id }

/-- States of a single printer reachable through the operations the rest
of the program performs on it: construction, `Print` (enqueue by the
dispatcher) and `Update` (per-second tick). -/
inductive Reachable : Printer → Prop where
  | init (id : Int) : Reachable (initialPrinter id)
  | print {p : Printer} (job : PrintJob) (t : Int) :
      Reachable p → Reachable (p.Print job t).1
  | update {p : Printer} (t : Int) :
      Reachable p → Reachable (p.Update t).1

/-- Sum of the page counts of the jobs of a queue. -/
def sumPages (q : List PrintJob) : Int :=
  (q.map PrintJob.Pages).sum

/-- Source `GetRandomPrintJob()`: the two `rand()` draws are passed explicitly
as the non-negative integers `r1` (the draw reduced modulo 10 to `r`) and
`r2` (the draw for the page count within the selected tier). -/
def GetRandomPrintJob (r1 r2 : Nat) : Nat :=
  let r := r1 % 10
  if r ≤ 3 then 1 + r2 % 10
  else if r ≤ 6 then 11 + r2 % 15
  else if r ≤ 8 then 26 + r2 % 25
  else 51 + r2 % 49

/-- Source `ShouldUpdate()`: the static `lastUpdate` marker is threaded
explicitly; returns whether the simulation should update together with
the new marker value. -/
def ShouldUpdate (simulatedTime lastUpdate : Int) : Bool × Int :=
  let timeSinceLastUpdate := simulatedTime - lastUpdate
  if timeSinceLastUpdate ≥ MILLISECONDS_PER_SECOND then
    (true, lastUpdate + MILLISECONDS_PER_SECOND)
  else
    (false, lastUpdate)

/-- The printer at index `i` of the pool (`printers[i]`), with an
irrelevant default past the end. -/
def printerAt (ps : List Printer) (i : Nat) : Printer :=
  ps.getD i default

/-- Value of `NoJobs()` of the printer at index `i` of the pool. -/
def noJobsAt (ps : List Printer) (i : Nat) : Bool :=
  (printerAt ps i).NoJobs

/-- Value of `GetTotalPagesLeft()` of the printer at index `i` of the pool. -/
def gtplAt (ps : List Printer) (i : Nat) : Int :=
  (printerAt ps i).GetTotalPagesLeft

/-- The selection loop of the dispatcher (`Update()`, the `for` loop over
`printers` maintaining `selectedForNewJob`), from index `i` on: a printer
with no jobs is selected immediately and the loop exits; index 0 skips
the comparison; otherwise a printer with strictly fewer total pages left
than the currently selected one becomes selected.  The pool is immutable
during the loop, so re-reading `printers[selectedForNewJob]` each
iteration is re-reading `gtplAt ps sel`. -/
def selectLoop (ps : List Printer) : List Printer → Nat → Nat → Nat
  | [], _, sel => sel
  | q :: rest, i, sel =>
    if q.NoJobs then i
    else if q.GetTotalPagesLeft < gtplAt ps sel then
      selectLoop ps rest (i + 1) i
    else
      selectLoop ps rest (i + 1) sel

/-- Index `selectedForNewJob` as computed by the dispatcher's loop over the
whole pool: starts at 0; at `i = 0` only the `NoJobs` early exit applies
(the comparison is skipped by `if (i == 0) continue;`). -/
def selectForNewJob (ps : List Printer) : Nat :=
  match ps with
  | [] => 0
  | q :: rest => if q.NoJobs then 0 else selectLoop ps rest 1 0

/-! Theorems for the claims. -/

/-- claim C2 counterexample state: one 10-page job enqueued at time 0,
then one tick at simulated time 9000 ms (9000 tdiv 8571 = 1 page
printed). -/
def stateC2x : Printer :=
  (((initialPrinter 0).Print ⟨0, 10⟩ 0).1.Update 9000).1

/-- C2 (counterexample): in the reachable state `stateC2x` the queue is
non-empty yet the stored field `totalPagesRemaining` (the spec's
`totalPagesRemainingAcrossQueue`) differs from the sum of the pages of
the queued jobs minus `pagesPrinted`: the field holds the plain sum 10,
not 10 - 1 = 9. -/
theorem claim_C2_cex :
    Reachable stateC2x ∧ stateC2x.printQueue ≠ [] ∧
      stateC2x.totalPagesRemaining ≠
        sumPages stateC2x.printQueue - stateC2x.pagesPrinted := by
  refine ⟨?_, by decide, by decide⟩
  exact Reachable.update 9000 (Reachable.print ⟨0, 10⟩ 0 (Reachable.init 0))

/-- Helper: `CheckStartNextJob` never changes the queue. -/
lemma CheckStartNextJob_printQueue (p : Printer) (t : Int) :
    (p.CheckStartNextJob t).1.printQueue = p.printQueue := by
  unfold Printer.CheckStartNextJob
  rcases hq : p.printQueue with _ | ⟨c, rest⟩
  · exact hq
  · dsimp only
    split
    · exact hq
    · rfl

/-- Helper: `CheckStartNextJob` never changes the running total. -/
lemma CheckStartNextJob_total (p : Printer) (t : Int) :
    (p.CheckStartNextJob t).1.totalPagesRemaining = p.totalPagesRemaining := by
  unfold Printer.CheckStartNextJob
  rcases hq : p.printQueue with _ | ⟨c, rest⟩
  · rfl
  · dsimp only
    split
    · rfl
    · rfl

/-- Helper: `CheckStartNextJob` never changes the printed-pages counter. -/
lemma CheckStartNextJob_pagesPrinted (p : Printer) (t : Int) :
    (p.CheckStartNextJob t).1.pagesPrinted = p.pagesPrinted := by
  unfold Printer.CheckStartNextJob
  rcases hq : p.printQueue with _ | ⟨c, rest⟩
  · rfl
  · dsimp only
    split
    · rfl
    · rfl

/-- Helper: `Print` appends the job at the back of the queue. -/
lemma Print_printQueue (p : Printer) (job : PrintJob) (t : Int) :
    (p.Print job t).1.printQueue = p.printQueue ++ [job] := by
  unfold Printer.Print
  dsimp only
  split
  · rw [CheckStartNextJob_printQueue]
  · rfl

/-- Helper: `Print` adds the job's pages to the running total. -/
lemma Print_total (p : Printer) (job : PrintJob) (t : Int) :
    (p.Print job t).1.totalPagesRemaining =
      p.totalPagesRemaining + job.Pages := by
  unfold Printer.Print
  dsimp only
  split
  · rw [CheckStartNextJob_total]
  · rfl

/-- Helper: `Print` leaves the printed-pages counter unchanged. -/
lemma Print_pagesPrinted (p : Printer) (job : PrintJob) (t : Int) :
    (p.Print job t).1.pagesPrinted = p.pagesPrinted := by
  unfold Printer.Print
  dsimp only
  split
  · rw [CheckStartNextJob_pagesPrinted]
  · rfl

/-- Helper: `sumPages` over an appended job. -/
lemma sumPages_append (q : List PrintJob) (job : PrintJob) :
    sumPages (q ++ [job]) = sumPages q + job.Pages := by
  simp [sumPages]

/-- Helper: a tick preserves the invariant that the running total equals
the sum of the pages of the queued jobs. -/
lemma Update_total_sum (p : Printer) (t : Int)
    (h : p.totalPagesRemaining = sumPages p.printQueue) :
    (p.Update t).1.totalPagesRemaining = sumPages (p.Update t).1.printQueue := by
  have h' : p.printQueue = [] ∨
      ∃ c rest, p.printQueue = c :: rest ∧
        p.totalPagesRemaining = c.Pages + sumPages rest := by
    rcases hq : p.printQueue with _ | ⟨c, rest⟩
    · exact Or.inl rfl
    · refine Or.inr ⟨c, rest, rfl, ?_⟩
      rw [h, hq]; simp [sumPages]
  unfold Printer.Update
  rcases hq : p.printQueue with _ | ⟨c, rest⟩
  · show p.totalPagesRemaining = sumPages p.printQueue
    exact h
  · rcases h' with h' | ⟨c', rest', hq', h'⟩
    · rw [hq] at h'; exact absurd h' (by simp)
    rw [hq] at hq'
    injection hq' with h1 h2
    subst h1; subst h2
    dsimp only
    split <;> split <;>
      first
      | (rw [CheckStartNextJob_total, CheckStartNextJob_printQueue]
         dsimp only
         omega)
      | (dsimp only
         rw [h, hq])

/-- The invariant the running total actually satisfies: in every
reachable printer state, `totalPagesRemaining` equals the sum of the
pages of the queued jobs (with no subtraction of `pagesPrinted`). -/
lemma reachable_total_eq_sumPages {p : Printer} (hp : Reachable p) :
    p.totalPagesRemaining = sumPages p.printQueue := by
  induction hp with
  | init id => simp [initialPrinter, sumPages]
  | print job t _ ih =>
    rw [Print_total, Print_printQueue, sumPages_append, ih]
  | update t _ ih => exact Update_total_sum _ t ih

/-- Helper: with a non-empty queue, `NoJobs` is false. -/
lemma NoJobs_eq_false {p : Printer} (h : p.printQueue ≠ []) :
    p.NoJobs = false := by
  unfold Printer.NoJobs
  rcases hq : p.printQueue with _ | ⟨c, rest⟩
  · exact absurd hq h
  · simp [hq]

/-- C2 (amended): in every reachable printer state the stored field
`totalPagesRemaining` (the spec's `totalPagesRemainingAcrossQueue`)
equals the plain sum of the pages of all jobs in the queue, and when the
queue is non-empty the derived query `GetTotalPagesLeft()` — not the
stored field — equals that sum minus `pagesPrinted`. -/
theorem claim_C2 {p : Printer} (hp : Reachable p) :
    p.totalPagesRemaining = sumPages p.printQueue ∧
      (p.printQueue ≠ [] →
        p.GetTotalPagesLeft = sumPages p.printQueue - p.pagesPrinted) := by
  refine ⟨reachable_total_eq_sumPages hp, fun hne => ?_⟩
  unfold Printer.GetTotalPagesLeft
  rw [NoJobs_eq_false hne]
  simp [reachable_total_eq_sumPages hp]

/-- C2 witness: the concrete reachable state `stateC2x` (queue holding a
single 10-page job, one page already printed). -/
theorem claim_C2_witness :
    stateC2x.GetTotalPagesLeft =
      sumPages stateC2x.printQueue - stateC2x.pagesPrinted := by
  have hp : Reachable stateC2x :=
    Reachable.update 9000 (Reachable.print ⟨0, 10⟩ 0 (Reachable.init 0))
  exact (claim_C2 hp).2 (by decide)

/-- C5 (counterexample): job creation does not fail on a non-positive
page count; at page count 0 (which is not positive) the constructor
succeeds and builds a job holding 0 pages — there is no `InvalidPages`
condition anywhere in the source. -/
theorem claim_C5_cex :
    (PrintJob.create 0 0).1.Pages = 0 ∧ ¬ ((0 : Int) > 0) := by
  decide

/-- C5 (amended): job creation performs no validation and never fails:
for every page count, non-positive ones included, it constructs a job
storing exactly the given page count, takes the current counter value as
the id, and post-increments the counter. -/
theorem claim_C5 (jobCount pages : Int) :
    (PrintJob.create jobCount pages).1.Pages = pages ∧
      (PrintJob.create jobCount pages).1.ID = jobCount ∧
      (PrintJob.create jobCount pages).2 = jobCount + 1 := by
  refine ⟨rfl, rfl, rfl⟩

/-- C6: the generator reduces its first draw modulo 10 to `r` and maps
it to a page count: `r ∈ {0,1,2,3}` (4 of the 10 residues, 40%) gives a
page count in `[1,10]`; `r ∈ {4,5,6}` (3 residues, 30%) gives `[11,25]`;
`r ∈ {7,8}` (2 residues, 20%) gives `[26,50]`; `r = 9` (1 residue, 10%)
gives `[51,99]`; and within each tier the residues of the second draw
map onto the whole closed interval (uniformly, one residue per page
count). -/
theorem claim_C6 :
    (∀ r1 r2 : Nat,
      (r1 % 10 ≤ 3 →
        1 ≤ GetRandomPrintJob r1 r2 ∧ GetRandomPrintJob r1 r2 ≤ 10) ∧
      (4 ≤ r1 % 10 → r1 % 10 ≤ 6 →
        11 ≤ GetRandomPrintJob r1 r2 ∧ GetRandomPrintJob r1 r2 ≤ 25) ∧
      (7 ≤ r1 % 10 → r1 % 10 ≤ 8 →
        26 ≤ GetRandomPrintJob r1 r2 ∧ GetRandomPrintJob r1 r2 ≤ 50) ∧
      (r1 % 10 = 9 →
        51 ≤ GetRandomPrintJob r1 r2 ∧ GetRandomPrintJob r1 r2 ≤ 99)) ∧
    ((Finset.range 10).filter (fun r => r ≤ 3)).card = 4 ∧
    ((Finset.range 10).filter (fun r => 4 ≤ r ∧ r ≤ 6)).card = 3 ∧
    ((Finset.range 10).filter (fun r => 7 ≤ r ∧ r ≤ 8)).card = 2 ∧
    ((Finset.range 10).filter (fun r => r = 9)).card = 1 ∧
    (Finset.range 10).image (fun s => GetRandomPrintJob 0 s) = Finset.Icc 1 10 ∧
    (Finset.range 15).image (fun s => GetRandomPrintJob 4 s) = Finset.Icc 11 25 ∧
    (Finset.range 25).image (fun s => GetRandomPrintJob 7 s) = Finset.Icc 26 50 ∧
    (Finset.range 49).image (fun s => GetRandomPrintJob 9 s) = Finset.Icc 51 99 := by
  refine ⟨?_, by decide, by decide, by decide, by decide,
          by decide, by decide, by decide, by decide⟩
  intro r1 r2
  have h10 : r2 % 10 < 10 := Nat.mod_lt _ (by omega)
  have h15 : r2 % 15 < 15 := Nat.mod_lt _ (by omega)
  have h25 : r2 % 25 < 25 := Nat.mod_lt _ (by omega)
  have h49 : r2 % 49 < 49 := Nat.mod_lt _ (by omega)
  unfold GetRandomPrintJob
  refine ⟨?_, ?_, ?_, ?_⟩ <;> intros <;> dsimp only <;> split <;> try omega
  all_goals split <;> try omega
  all_goals split <;> omega

/-- C6 witness: concrete draws in each tier. -/
theorem claim_C6_witness :
    (1 ≤ GetRandomPrintJob 3 7 ∧ GetRandomPrintJob 3 7 ≤ 10) ∧
      (51 ≤ GetRandomPrintJob 19 100 ∧ GetRandomPrintJob 19 100 ≤ 99) := by
  refine ⟨(claim_C6.1 3 7).1 (by decide), (claim_C6.1 19 100).2.2.2 (by decide)⟩

/-- claim C3 failing trace: a 1-page job enqueued at time 0 completes at
the tick at 8571 ms (one sheet takes 8571 ms), leaving the printer idle
with `pagesPrinted = 1`; a 5-page job is then enqueued at 30000 ms and
immediately becomes the new head job. -/
def stateC3 : Printer × List Event :=
  ((((initialPrinter 0).Print ⟨0, 1⟩ 0).1.Update 8571).1.Print ⟨1, 5⟩ 30000)

/-- C3 (code bug): at the moment the new head job (job 1) begins
printing — the "started printing" event for it is emitted and `printing`
becomes true — `pagesPrinted` still holds the previous job's page count
1 instead of 0: neither `CheckStartNextJob()` nor `Print()` ever resets
it, so it is only overwritten at the next tick. -/
theorem claim_C3_bug :
    Reachable stateC3.1 ∧
      Event.startedPrinting 0 1 ∈ stateC3.2 ∧
      stateC3.1.printing = true ∧
      stateC3.1.pagesPrinted = 1 ∧
      stateC3.1.pagesPrinted ≠ 0 := by
  refine ⟨?_, by decide, by decide, by decide, by decide⟩
  exact Reachable.print ⟨1, 5⟩ 30000
    (Reachable.update 8571 (Reachable.print ⟨0, 1⟩ 0 (Reachable.init 0)))

/-- claim C4 failing trace: jobs of 2 and 1 pages enqueued at time 0; at
the tick at 18000 ms the 2-page head job completes (18000 tdiv 8571 = 2)
and the 1-page job becomes the head. -/
def stateC4 : Printer :=
  ((((initialPrinter 0).Print ⟨0, 2⟩ 0).1.Print ⟨1, 1⟩ 0).1.Update 18000).1

/-- C4 (code bug): at the end of the tick at 18000 ms the queue is
non-empty — its head is the 1-page job — yet `pagesPrinted = 2` exceeds
the head job's page count, because completing the previous job popped
the queue without resetting `pagesPrinted`. -/
theorem claim_C4_bug :
    Reachable stateC4 ∧
      stateC4.printQueue.map PrintJob.Pages = [1] ∧
      stateC4.pagesPrinted = 2 ∧
      ¬ stateC4.pagesPrinted ≤ (1 : Int) := by
  refine ⟨?_, by decide, by decide, by decide⟩
  exact Reachable.update 18000
    (Reachable.print ⟨1, 1⟩ 0 (Reachable.print ⟨0, 2⟩ 0 (Reachable.init 0)))

/-- claim C8 failing trace: a 5-page job enqueued at time 0 completes at
the tick at 42855 ms (42855 tdiv 8571 = 5), leaving the printer idle
with `pagesPrinted = 5`; a 10-page job is then enqueued at 60000 ms. -/
def stateC8a : Printer :=
  (((initialPrinter 0).Print ⟨0, 5⟩ 0).1.Update 42855).1

/-- claim C8: the state immediately after the enqueue of the 10-page
job. -/
def stateC8b : Printer :=
  (stateC8a.Print ⟨1, 10⟩ 60000).1

/-- C8 (code bug): immediately before the enqueue of the 10-page job
`GetTotalPagesLeft()` is 0, and immediately after it is 5 rather than
0 + 10: the stale `pagesPrinted = 5` of the previously completed job is
subtracted, so the query grows by the enqueued job's pages minus the
stale counter instead of by exactly the job's pages. -/
theorem claim_C8_bug :
    Reachable stateC8a ∧ Reachable stateC8b ∧
      stateC8a.GetTotalPagesLeft = 0 ∧
      stateC8b.GetTotalPagesLeft = 5 ∧
      stateC8b.GetTotalPagesLeft ≠
        stateC8a.GetTotalPagesLeft + (10 : Int) := by
  have h8a : Reachable stateC8a :=
    Reachable.update 42855 (Reachable.print ⟨0, 5⟩ 0 (Reachable.init 0))
  refine ⟨h8a, Reachable.print ⟨1, 10⟩ 60000 h8a, by decide, by decide, by decide⟩

/-- C7: `ShouldUpdate` fires exactly when at least
`MILLISECONDS_PER_SECOND` (1000) simulated milliseconds have elapsed
since the `lastUpdate` marker, and when it fires it advances the marker
by exactly 1000 simulated milliseconds, otherwise leaving it unchanged
(so consecutive calls drain a multi-second jump one simulated second at
a time). -/
theorem claim_C7 (simulatedTime lastUpdate : Int) :
    ((ShouldUpdate simulatedTime lastUpdate).1 = true ↔
      MILLISECONDS_PER_SECOND ≤ simulatedTime - lastUpdate) ∧
    (ShouldUpdate simulatedTime lastUpdate).2 =
      (if MILLISECONDS_PER_SECOND ≤ simulatedTime - lastUpdate then
        lastUpdate + MILLISECONDS_PER_SECOND
      else lastUpdate) := by
  unfold ShouldUpdate
  dsimp only
  split
  · rename_i h
    exact ⟨by simp [h], rfl⟩
  · rename_i h
    exact ⟨by simp [h], rfl⟩

/-- C7 witness: a 2500 ms jump past the marker fires and advances the
marker by exactly 1000 ms. -/
theorem claim_C7_witness :
    (ShouldUpdate 2500 0).1 = true ∧ (ShouldUpdate 2500 0).2 = 1000 := by
  refine ⟨(claim_C7 2500 0).1.mpr (by decide), by decide⟩

/-- C9: when during a tick the recomputed (clamped) `pagesPrinted`
reaches the head job's page count — i.e. the elapsed sheets since the
job started are at least its pages — `Update` performs exactly: emit the
"finished printing" event, subtract the completed job's pages from
`totalPagesRemaining`, pop the job off the queue, set `printing` to
false, and attempt to start the new head job, which (the printer now
being idle) starts it and emits its "started printing" event exactly
when the queue is still non-empty. -/
theorem claim_C9 (p : Printer) (t : Int) (j : PrintJob) (rest : List PrintJob)
    (hq : p.printQueue = j :: rest)
    (hdone : j.Pages ≤ (t - p.start).tdiv MILLISECONDS_PER_SHEET) :
    (p.Update t).1.totalPagesRemaining = p.totalPagesRemaining - j.Pages ∧
      (p.Update t).1.printQueue = rest ∧
      (p.Update t).1.pagesPrinted = j.Pages ∧
      (rest = [] →
        (p.Update t).1.printing = false ∧
        (p.Update t).2 = [Event.finishedPrinting p.printerID j.ID]) ∧
      (∀ k krest, rest = k :: krest →
        (p.Update t).1.printing = true ∧
        (p.Update t).1.start = t ∧
        (p.Update t).2 = [Event.finishedPrinting p.printerID j.ID,
                          Event.startedPrinting p.printerID k.ID]) := by
  have hclamp :
      (if (t - p.start).tdiv MILLISECONDS_PER_SHEET > j.Pages then j.Pages
        else (t - p.start).tdiv MILLISECONDS_PER_SHEET) = j.Pages := by
    split <;> omega
  rcases rest with _ | ⟨k, krest⟩
  · have hupd : p.Update t =
        ({ start := p.start, pagesPrinted := j.Pages,
           totalPagesRemaining := p.totalPagesRemaining - j.Pages,
           printerID := p.printerID, printQueue := [], printing := false },
         [Event.finishedPrinting p.printerID j.ID]) := by
      simp [Printer.Update, hq, hclamp, Printer.JobComplete, Printer.PagesLeft,
            Printer.CheckStartNextJob, Printer.IsIdle]
    rw [hupd]
    exact ⟨rfl, rfl, rfl, fun _ => ⟨rfl, rfl⟩,
           fun k krest hk => absurd hk (by simp)⟩
  · have hupd : p.Update t =
        ({ start := t, pagesPrinted := j.Pages,
           totalPagesRemaining := p.totalPagesRemaining - j.Pages,
           printerID := p.printerID, printQueue := k :: krest, printing := true },
         [Event.finishedPrinting p.printerID j.ID,
          Event.startedPrinting p.printerID k.ID]) := by
      simp [Printer.Update, hq, hclamp, Printer.JobComplete, Printer.PagesLeft,
            Printer.CheckStartNextJob, Printer.IsIdle]
    rw [hupd]
    refine ⟨rfl, rfl, rfl, fun hk => absurd hk (by simp), ?_⟩
    intro k' krest' hk
    injection hk with hk1 hk2
    subst hk1; subst hk2
    exact ⟨rfl, rfl, rfl⟩

/-- C9 witness: a printer holding a 1-page job (started at time 0) and a
2-page job behind it, ticked at 9000 ms: the 1-page job finishes and the
2-page job starts. -/
theorem claim_C9_witness :
    (({ printQueue := [⟨0, 1⟩, ⟨1, 2⟩], totalPagesRemaining := 3,
        printing := true : Printer }.Update 9000).1.printQueue = [⟨1, 2⟩]) ∧
      (({ printQueue := [⟨0, 1⟩, ⟨1, 2⟩], totalPagesRemaining := 3,
          printing := true : Printer }.Update 9000).1.printing = true) ∧
      (({ printQueue := [⟨0, 1⟩, ⟨1, 2⟩], totalPagesRemaining := 3,
          printing := true : Printer }.Update 9000).2 =
        [Event.finishedPrinting 0 0, Event.startedPrinting 0 1]) := by
  have h := claim_C9
    { printQueue := [⟨0, 1⟩, ⟨1, 2⟩], totalPagesRemaining := 3, printing := true }
    9000 ⟨0, 1⟩ [⟨1, 2⟩] rfl (by decide)
  exact ⟨h.2.1, (h.2.2.2.2 ⟨1, 2⟩ [] rfl).1, (h.2.2.2.2 ⟨1, 2⟩ [] rfl).2.2⟩

/-- Helper: `noJobsAt` at a valid index is the `NoJobs` of the
element. -/
lemma noJobsAt_eq {ps : List Printer} {i : Nat} (hi : i < ps.length) :
    noJobsAt ps i = ps[i].NoJobs := by
  unfold noJobsAt printerAt
  rw [List.getD_eq_getElem ps default hi]

/-- Helper: `gtplAt` at a valid index is the `GetTotalPagesLeft` of the
element. -/
lemma gtplAt_eq {ps : List Printer} {i : Nat} (hi : i < ps.length) :
    gtplAt ps i = ps[i].GetTotalPagesLeft := by
  unfold gtplAt printerAt
  rw [List.getD_eq_getElem ps default hi]

/-- Helper: loop invariant of the dispatcher's selection loop.  Starting
at index `i` with current selection `sel`, provided the prefix before
`i` holds no idle printer and `sel` is the first index of the minimal
`GetTotalPagesLeft()` on that prefix, the loop returns an in-bounds
index that is either the first idle printer of the pool or — when the
pool has no idle printer — the first index attaining the minimal
`GetTotalPagesLeft()`. -/
lemma selectLoop_spec (ps : List Printer) :
    ∀ (rest : List Printer) (i sel : Nat),
      rest = ps.drop i → i ≤ ps.length → sel < i →
      (∀ j, j < i → noJobsAt ps j = false) →
      (∀ j, j < sel → gtplAt ps sel < gtplAt ps j) →
      (∀ j, sel ≤ j → j < i → gtplAt ps sel ≤ gtplAt ps j) →
      selectLoop ps rest i sel < ps.length ∧
        ((noJobsAt ps (selectLoop ps rest i sel) = true ∧
           ∀ j, j < selectLoop ps rest i sel → noJobsAt ps j = false) ∨
         ((∀ j, j < ps.length → noJobsAt ps j = false) ∧
          (∀ j, j < selectLoop ps rest i sel →
            gtplAt ps (selectLoop ps rest i sel) < gtplAt ps j) ∧
          (∀ j, j < ps.length →
            gtplAt ps (selectLoop ps rest i sel) ≤ gtplAt ps j))) := by
  intro rest
  induction rest with
  | nil =>
    intro i sel hdrop hile hsel h4 h5 h6
    have hlen : ps.length ≤ i := List.drop_eq_nil_iff.mp hdrop.symm
    have hieq : i = ps.length := le_antisymm hile hlen
    subst hieq
    refine ⟨hsel, Or.inr ⟨h4, fun j hj => h5 j hj, fun j hj => ?_⟩⟩
    rcases lt_or_le j sel with hjs | hjs
    · exact le_of_lt (h5 j hjs)
    · exact h6 j hjs hj
  | cons q rest ih =>
    intro i sel hdrop hile hsel h4 h5 h6
    have hi : i < ps.length := by
      by_contra hc
      rw [List.drop_eq_nil_of_le (le_of_not_lt hc)] at hdrop
      exact List.noConfusion hdrop
    have hget := List.drop_eq_getElem_cons (l := ps) (n := i) hi
    rw [hget] at hdrop
    injection hdrop.symm with hq hrest
    unfold selectLoop
    rcases hnj : q.NoJobs with _ | _
    case true =>
      rw [if_pos rfl]
      refine ⟨hi, Or.inl ⟨?_, h4⟩⟩
      rw [noJobsAt_eq hi, hq, hnj]
    case false =>
      rw [if_neg Bool.false_ne_true]
      have h4' : ∀ j, j < i + 1 → noJobsAt ps j = false := by
        intro j hj
        rcases Nat.lt_succ_iff_lt_or_eq.mp hj with hj | rfl
        · exact h4 j hj
        · rw [noJobsAt_eq hi, hq, hnj]
      have hgq : gtplAt ps i = q.GetTotalPagesLeft := by
        rw [gtplAt_eq hi, hq]
      by_cases hltv : q.GetTotalPagesLeft < gtplAt ps sel
      · rw [if_pos hltv]
        refine ih (i + 1) i hrest.symm hi (Nat.lt_succ_self i) h4' ?_ ?_
        · intro j hj
          rw [hgq]
          rcases lt_or_le j sel with hjs | hjs
          · exact lt_trans hltv (h5 j hjs)
          · exact lt_of_lt_of_le hltv (h6 j hjs hj)
        · intro j hij hj
          have hji : j = i := by omega
          subst hji
          exact le_refl _
      · rw [if_neg hltv]
        refine ih (i + 1) sel hrest.symm hi
          (lt_of_lt_of_le hsel (Nat.le_succ i)) h4' h5 ?_
        intro j hjs hj
        rcases Nat.lt_succ_iff_lt_or_eq.mp hj with hj | rfl
        · exact h6 j hjs hj
        · rw [hgq]; exact le_of_not_lt hltv

/-- Helper: full correctness of the dispatcher's selection over a
non-empty pool, packaged as the invariant lemma's disjunction. -/
lemma selectForNewJob_spec (ps : List Printer) (hne : ps ≠ []) :
    selectForNewJob ps < ps.length ∧
      ((noJobsAt ps (selectForNewJob ps) = true ∧
         ∀ j, j < selectForNewJob ps → noJobsAt ps j = false) ∨
       ((∀ j, j < ps.length → noJobsAt ps j = false) ∧
        (∀ j, j < selectForNewJob ps →
          gtplAt ps (selectForNewJob ps) < gtplAt ps j) ∧
        (∀ j, j < ps.length →
          gtplAt ps (selectForNewJob ps) ≤ gtplAt ps j))) := by
  rcases hps : ps with _ | ⟨q, rest⟩
  · exact absurd hps hne
  subst hps
  have hq0 : noJobsAt (q :: rest) 0 = q.NoJobs := by
    unfold noJobsAt printerAt
    rfl
  have hg0 : gtplAt (q :: rest) 0 = q.GetTotalPagesLeft := by
    unfold gtplAt printerAt
    rfl
  simp only [selectForNewJob]
  rcases hnj : q.NoJobs with _ | _
  case true =>
    rw [if_pos rfl]
    refine ⟨by simp, Or.inl ⟨by rw [hq0, hnj], fun j hj => absurd hj (Nat.not_lt_zero j)⟩⟩
  case false =>
    rw [if_neg Bool.false_ne_true]
    refine selectLoop_spec (q :: rest) rest 1 0 rfl (by simp) Nat.zero_lt_one
      ?_ (fun j hj => absurd hj (Nat.not_lt_zero j)) ?_
    · intro j hj
      have hj0 : j = 0 := by omega
      subst hj0
      rw [hq0, hnj]
    · intro j hsel hj
      have hj0 : j = 0 := by omega
      subst hj0
      exact le_refl _

/-- C1: the dispatcher's selection over a non-empty pool: when some
printer has an empty queue the selected index is the first such printer
(everything before it has jobs), and otherwise the selected index is in
bounds, has the minimum `GetTotalPagesLeft()` of the whole pool, and is
strictly below every earlier printer's value (strict less-than
comparison, so on an exact tie the lowest index wins). -/
theorem claim_C1 (ps : List Printer) (hne : ps ≠ []) :
    selectForNewJob ps < ps.length ∧
      ((∃ i, i < ps.length ∧ noJobsAt ps i = true) →
        noJobsAt ps (selectForNewJob ps) = true ∧
        ∀ j, j < selectForNewJob ps → noJobsAt ps j = false) ∧
      ((∀ i, i < ps.length → noJobsAt ps i = false) →
        (∀ j, j < ps.length →
          gtplAt ps (selectForNewJob ps) ≤ gtplAt ps j) ∧
        (∀ j, j < selectForNewJob ps →
          gtplAt ps (selectForNewJob ps) < gtplAt ps j)) := by
  obtain ⟨hlen, hdisj⟩ := selectForNewJob_spec ps hne
  refine ⟨hlen, ?_, ?_⟩
  · intro hidle
    rcases hdisj with h | ⟨hall, _, _⟩
    · exact h
    · obtain ⟨i, hi, hno⟩ := hidle
      rw [hall i hi] at hno
      exact absurd hno Bool.false_ne_true
  · intro hnone
    rcases hdisj with ⟨hk, _⟩ | ⟨_, hstrict, hmin⟩
    · rw [hnone _ hlen] at hk
      exact absurd hk Bool.false_ne_true
    · exact ⟨hmin, hstrict⟩

/-- claim C1 witness pool: the spec's tie-break example — two busy
printers, each with a single 50-page job and nothing printed yet, so
both have `GetTotalPagesLeft() = 50`. -/
def poolC1 : List Printer :=
  [{ printerID := 0, printQueue := [⟨0, 50⟩], totalPagesRemaining := 50,
     printing := true },
   { printerID := 1, printQueue := [⟨1, 50⟩], totalPagesRemaining := 50,
     printing := true }]

/-- C1 witness: on the exact-tie pool both busy, the selected printer is
index 0 and its load is at most the other's. -/
theorem claim_C1_witness :
    selectForNewJob poolC1 = 0 ∧
      gtplAt poolC1 (selectForNewJob poolC1) ≤ gtplAt poolC1 1 := by
  have h := claim_C1 poolC1 (by decide)
  have hnone : ∀ i, i < poolC1.length → noJobsAt poolC1 i = false := by decide
  exact ⟨by decide, (h.2.2 hnone).1 1 (by decide)⟩

/-- C10: for every non-empty printer pool the dispatcher's selected
index is strictly below the pool size, so the final
`printers[selectedForNewJob]` access is in bounds. -/
theorem claim_C10 (ps : List Printer) (hne : ps ≠ []) :
    selectForNewJob ps < ps.length :=
  (selectForNewJob_spec ps hne).1

/-- C10 witness: a pool of four just-constructed printers (the
`NUMBER_OF_PRINTERS = 4` configuration of `Setup()`). -/
theorem claim_C10_witness :
    selectForNewJob
        [initialPrinter 0, initialPrinter 1, initialPrinter 2, initialPrinter 3] <
      4 :=
  claim_C10
    [initialPrinter 0, initialPrinter 1, initialPrinter 2, initialPrinter 3]
    (by decide)

end PrinterQueue
